import Mathlib

/-!
Verification development for the fingerprint-library subsystem of the
xingrin backend (format adapters, import/validate pipeline, export engine,
version oracle and worker-side local cache).

Python values flowing through the adapters are modelled by the `Json`
inductive; Python dicts are association lists with first-match lookup.
Each service's `validate_fingerprint`, `to_model_data` and
`get_export_data` is translated directly from
`apps/engine/services/fingerprints/*.py`; the worker-side cache helpers
come from `apps/scan/utils/fingerprint_helpers.py`.
-/

/-- Model of a Python/JSON value as handled by the fingerprint services. -/
inductive Json where
  | null
  | bool (b : Bool)
  | num (n : Int)
  | str (s : String)
  | arr (elems : List Json)
  | obj (entries : List (String × Json))

/-- Association-list model of a Python dict (string keys, insertion order). -/
abbrev Dict := List (String × Json)

/-- Lookup of a key in a dict, Python's `d.get(k)` returning `None` on absence. -/
def dictGet (d : Dict) (k : String) : Option Json :=
  match d with
  | [] => none
  | (k', v) :: rest => if k' == k then some v else dictGet rest k

/-- Python's `d.get(k, default)`. -/
def pyGet (d : Dict) (k : String) (dflt : Json) : Json :=
  (dictGet d k).getD dflt

/-- Key-presence test, Python's `k in d`. -/
def hasKey (d : Dict) (k : String) : Bool :=
  (dictGet d k).isSome

/-- Python truthiness (`bool(x)`) of a JSON value. -/
def pyTruthy : Json → Bool
  | .null => false
  | .bool b => b
  | .num n => !(n == 0)
  | .str s => !(s == "")
  | .arr xs => !xs.isEmpty
  | .obj kvs => !kvs.isEmpty

/-- Python's whitespace set for str.strip (the ASCII part). -/
def isPySpace (c : Char) : Bool :=
  c == ' ' || c == '\t' || c == '\n' || c == '\r' || c == '\x0b' || c == '\x0c'

/-- Python's str.strip(): drop leading and trailing whitespace. Implemented
by structural recursion on the character list so that it evaluates. -/
def pyStrip (s : String) : String :=
  String.mk (((s.data.dropWhile isPySpace).reverse.dropWhile isPySpace).reverse)

/-- Rendering used by Python's `repr` for strings nested inside containers
(single-quoted; quotes produced via code points to keep the text plain). -/
def pyQuote (s : String) : String :=
  let q := String.singleton (Char.ofNat 39)
  q ++ s ++ q

mutual

/-- Python's `str(x)` on a JSON value, with containers rendered in
`repr` style (elements of `arr`/`obj` are rendered recursively). The
container branches are never load-bearing for the theorems below; they
exist to make `str` total as it is in Python. -/
def pyStr : Json → String
  | .null => "None"
  | .bool b => if b then "True" else "False"
  | .num n => toString n
  | .str s => s
  | .arr xs => "[" ++ String.intercalate ", " (pyStrList xs) ++ "]"
  | .obj kvs => "\x7b" ++ String.intercalate ", " (pyStrEntries kvs) ++ "\x7d"
termination_by structural j => j

/-- Repr-style rendering of the elements of a list (strings quoted). -/
def pyStrList : List Json → List String
  | [] => []
  | .str s :: rest => pyQuote s :: pyStrList rest
  | x :: rest => pyStr x :: pyStrList rest
termination_by structural l => l

/-- Repr-style rendering of the entries of a dict. -/
def pyStrEntries : List (String × Json) → List String
  | [] => []
  | (k, .str s) :: rest => (pyQuote k ++ ": " ++ pyQuote s) :: pyStrEntries rest
  | (k, v) :: rest => (pyQuote k ++ ": " ++ pyStr v) :: pyStrEntries rest
termination_by structural l => l

end

/-- Python's `isinstance(x, list)`. -/
def isArr : Json → Bool
  | .arr _ => true
  | _ => false

/-- Python's `isinstance(x, dict)`. -/
def isObj : Json → Bool
  | .obj _ => true
  | _ => false

/-- Truthiness of an optional lookup result (`bool(d.get(k))` with absent = falsy). -/
def optTruthy : Option Json → Bool
  | none => false
  | some v => pyTruthy v

/-- Python dict assignment `d[k] = v`: update in place when the key exists
(keeping its position), append otherwise. -/
def dictSet (d : Dict) (k : String) (v : Json) : Dict :=
  match d with
  | [] => [(k, v)]
  | (k', v') :: rest => if k' == k then (k', v) :: rest else (k', v') :: dictSet rest k v

/-- Python dict literal with splat, as in `{"name": name, **data}`: start from
`init` and apply each entry of `updates` as an assignment. -/
def dictLit (init : Dict) (updates : Dict) : Dict :=
  updates.foldl (fun d p => dictSet d p.1 p.2) init

/-- Entries of a JSON object; the fingerprint code only reaches this on
values already checked (or known) to be objects. -/
def dictOfJson : Json → Dict
  | .obj kvs => kvs
  | _ => []

namespace FingersFingerprintService

/-- Normalized Fingers record: the model fields produced by `to_model_data`
(`name` passes through `str(...).strip()`, the rest keep the raw value). -/
structure Model where
  name : String
  link : Json
  rule : Json
  tag : Json
  focus : Json
  default_port : Json

/-- Translation of FingersFingerprintService.validate_fingerprint:
name must be truthy with non-blank `str(name).strip()`, rule must be a list. -/
def validate_fingerprint (item : Dict) : Bool :=
  let name := pyGet item "name" (Json.str "")
  let rule := dictGet item "rule"
  (pyTruthy name && !(pyStrip (pyStr name) == "")) &&
    (match rule with
     | some r => isArr r
     | none => false)

/-- Translation of FingersFingerprintService.to_model_data. -/
def to_model_data (item : Dict) : Model :=
  { name := pyStrip (pyStr (pyGet item "name" (Json.str "")))
    link := pyGet item "link" (Json.str "")
    rule := pyGet item "rule" (Json.arr [])
    tag := pyGet item "tag" (Json.arr [])
    focus := pyGet item "focus" (Json.bool false)
    default_port := pyGet item "default_port" (Json.arr []) }

/-- Per-record reconstruction inside
FingersFingerprintService.get_export_data: name, link, rule, tag always
present; focus only when truthy; default_port only when truthy (non-empty). -/
def export_record (fp : Model) : Dict :=
  [("name", Json.str fp.name), ("link", fp.link), ("rule", fp.rule),
    ("tag", fp.tag)]
  ++ (if pyTruthy fp.focus then [("focus", fp.focus)] else [])
  ++ (if pyTruthy fp.default_port then [("default_port", fp.default_port)] else [])

/-- Translation of FingersFingerprintService.get_export_data over a store. -/
def get_export_data (store : List Model) : List Dict :=
  store.map export_record

end FingersFingerprintService

namespace GobyFingerprintService

/-- Normalized Goby record (fields of `to_model_data`). -/
structure Model where
  name : String
  logic : Json
  rule : Json

/-- Translation of GobyFingerprintService.validate_fingerprint:
name truthy and non-blank after strip, logic truthy, rule a list. -/
def validate_fingerprint (item : Dict) : Bool :=
  let name := pyGet item "name" (Json.str "")
  let logic := pyGet item "logic" (Json.str "")
  let rule := dictGet item "rule"
  (pyTruthy name && !(pyStrip (pyStr name) == "")) && pyTruthy logic &&
    (match rule with
     | some r => isArr r
     | none => false)

/-- Translation of GobyFingerprintService.to_model_data. -/
def to_model_data (item : Dict) : Model :=
  { name := pyStrip (pyStr (pyGet item "name" (Json.str "")))
    logic := pyGet item "logic" (Json.str "")
    rule := pyGet item "rule" (Json.arr []) }

/-- Per-record shape of GobyFingerprintService.get_export_data. -/
def export_record (fp : Model) : Dict :=
  [("name", Json.str fp.name), ("logic", fp.logic), ("rule", fp.rule)]

/-- Translation of GobyFingerprintService.get_export_data over a store. -/
def get_export_data (store : List Model) : List Dict :=
  store.map export_record

end GobyFingerprintService

namespace WappalyzerFingerprintService

/-- Normalized Wappalyzer record (fields of `to_model_data`). -/
structure Model where
  name : String
  cats : Json
  cookies : Json
  headers : Json
  script_src : Json
  js : Json
  implies : Json
  meta : Json
  html : Json
  description : Json
  website : Json
  cpe : Json

/-- Translation of WappalyzerFingerprintService.validate_fingerprint:
only the name (coming from the apps-object key) must be non-blank. -/
def validate_fingerprint (item : Dict) : Bool :=
  let name := pyGet item "name" (Json.str "")
  pyTruthy name && !(pyStrip (pyStr name) == "")

/-- Translation of WappalyzerFingerprintService.to_model_data
(the raw key scriptSrc maps to the model field script_src). -/
def to_model_data (item : Dict) : Model :=
  { name := pyStrip (pyStr (pyGet item "name" (Json.str "")))
    cats := pyGet item "cats" (Json.arr [])
    cookies := pyGet item "cookies" (Json.obj [])
    headers := pyGet item "headers" (Json.obj [])
    script_src := pyGet item "scriptSrc" (Json.arr [])
    js := pyGet item "js" (Json.arr [])
    implies := pyGet item "implies" (Json.arr [])
    meta := pyGet item "meta" (Json.obj [])
    html := pyGet item "html" (Json.arr [])
    description := pyGet item "description" (Json.str "")
    website := pyGet item "website" (Json.str "")
    cpe := pyGet item "cpe" (Json.str "") }

/-- Per-record app body built by WappalyzerFingerprintService.get_export_data:
each field is emitted only when truthy, in the source's check order. -/
def export_app (fp : Model) : Dict :=
  (if pyTruthy fp.cats then [("cats", fp.cats)] else [])
  ++ (if pyTruthy fp.cookies then [("cookies", fp.cookies)] else [])
  ++ (if pyTruthy fp.headers then [("headers", fp.headers)] else [])
  ++ (if pyTruthy fp.script_src then [("scriptSrc", fp.script_src)] else [])
  ++ (if pyTruthy fp.js then [("js", fp.js)] else [])
  ++ (if pyTruthy fp.implies then [("implies", fp.implies)] else [])
  ++ (if pyTruthy fp.meta then [("meta", fp.meta)] else [])
  ++ (if pyTruthy fp.html then [("html", fp.html)] else [])
  ++ (if pyTruthy fp.description then [("description", fp.description)] else [])
  ++ (if pyTruthy fp.website then [("website", fp.website)] else [])
  ++ (if pyTruthy fp.cpe then [("cpe", fp.cpe)] else [])

/-- Translation of WappalyzerFingerprintService.get_export_data:
the container (apps keyed by record name). -/
def get_export_data (store : List Model) : Json :=
  Json.obj [("apps", Json.obj (store.map fun fp => (fp.name, Json.obj (export_app fp))))]

end WappalyzerFingerprintService

namespace FingerPrintHubFingerprintService

/-- Normalized FingerPrintHub record (fields of `to_model_data`). -/
structure Model where
  fp_id : String
  name : String
  author : Json
  tags : Json
  severity : Json
  metadata : Json
  http : Json
  source_file : Json

/-- Translation of FingerPrintHubFingerprintService.validate_fingerprint:
id non-blank after strip, info a dict with truthy name, http a list. -/
def validate_fingerprint (item : Dict) : Bool :=
  let fp_id := pyGet item "id" (Json.str "")
  let info := pyGet item "info" (Json.obj [])
  let http := dictGet item "http"
  if !pyTruthy fp_id || pyStrip (pyStr fp_id) == "" then false
  else if !isObj info || !optTruthy (dictGet (dictOfJson info) "name") then false
  else
    match http with
    | some h => isArr h
    | none => false

/-- Translation of FingerPrintHubFingerprintService.to_model_data
(nested info object flattened into model fields); the non-dict branch of
`dictOfJson` is unreachable after `validate_fingerprint`. -/
def to_model_data (item : Dict) : Model :=
  let info := dictOfJson (pyGet item "info" (Json.obj []))
  { fp_id := pyStrip (pyStr (pyGet item "id" (Json.str "")))
    name := pyStrip (pyStr (pyGet info "name" (Json.str "")))
    author := pyGet info "author" (Json.str "")
    tags := pyGet info "tags" (Json.str "")
    severity := pyGet info "severity" (Json.str "info")
    metadata := pyGet info "metadata" (Json.obj [])
    http := pyGet item "http" (Json.arr [])
    source_file := pyGet item "_source_file" (Json.str "") }

/-- Per-record reconstruction inside
FingerPrintHubFingerprintService.get_export_data: id, the nested info
object and http always present; _source_file only when truthy. -/
def export_record (fp : Model) : Dict :=
  [("id", Json.str fp.fp_id),
    ("info", Json.obj [("name", Json.str fp.name), ("author", fp.author),
      ("tags", fp.tags), ("severity", fp.severity), ("metadata", fp.metadata)]),
    ("http", fp.http)]
  ++ (if pyTruthy fp.source_file then [("_source_file", fp.source_file)] else [])

/-- Translation of FingerPrintHubFingerprintService.get_export_data. -/
def get_export_data (store : List Model) : List Dict :=
  store.map export_record

end FingerPrintHubFingerprintService

namespace ARLFingerprintService

/-- Normalized ARL record (fields of `to_model_data`). -/
structure Model where
  name : String
  rule : String

/-- Translation of ARLFingerprintService.validate_fingerprint:
name and rule both truthy and non-blank after strip. -/
def validate_fingerprint (item : Dict) : Bool :=
  let name := pyGet item "name" (Json.str "")
  let rule := pyGet item "rule" (Json.str "")
  (pyTruthy name && !(pyStrip (pyStr name) == "")) &&
    (pyTruthy rule && !(pyStrip (pyStr rule) == ""))

/-- Translation of ARLFingerprintService.to_model_data (both fields stripped). -/
def to_model_data (item : Dict) : Model :=
  { name := pyStrip (pyStr (pyGet item "name" (Json.str "")))
    rule := pyStrip (pyStr (pyGet item "rule" (Json.str ""))) }

/-- Per-record shape of ARLFingerprintService.get_export_data. -/
def export_record (fp : Model) : Dict :=
  [("name", Json.str fp.name), ("rule", Json.str fp.rule)]

/-- Translation of ARLFingerprintService.get_export_data over a store. -/
def get_export_data (store : List Model) : List Dict :=
  store.map export_record

/-- Translation of ARLFingerprintService.parse_yaml_import on an already
parsed YAML document: a non-list document raises ValueError. -/
def parse_yaml_import (doc : Json) : Except String (List Json) :=
  match doc with
  | .arr xs => .ok xs
  | _ => .error "ARL YAML 文件必须是数组格式"

end ARLFingerprintService

namespace EholeFingerprintService

/-- Normalized EHole record. Modelled from the spec: EholeFingerprintService
(services/fingerprints/ehole.py) is not under src/; per the spec's schema
table the unique key is name and rule is the required string field. -/
structure Model where
  name : String
  rule : Json

/-- Modelled from the spec: EholeFingerprintService.validate_fingerprint is
not under src/. Per the spec, the identifying key name must be present and
non-blank after trimming and the required field rule must be a string. -/
def validate_fingerprint (item : Dict) : Bool :=
  let name := pyGet item "name" (Json.str "")
  let rule := dictGet item "rule"
  (pyTruthy name && !(pyStrip (pyStr name) == "")) &&
    (match rule with
     | some (.str _) => true
     | _ => false)

/-- Modelled from the spec: EholeFingerprintService.to_model_data is not
under src/. Per the spec, normalization trims the identifying key. -/
def to_model_data (item : Dict) : Model :=
  { name := pyStrip (pyStr (pyGet item "name" (Json.str "")))
    rule := pyGet item "rule" (Json.str "") }

end EholeFingerprintService

namespace InitFingerprintsCommand

/-- Translation of Command._extract_fingerprints from
management/commands/init_fingerprints.py: select the target via data_key
(for the apps key, tolerate the technologies alias with Python or-chaining),
pass arrays through, flatten keyed objects into records carrying the key as
name, and return the empty list for anything else. The file_data value on
the keyed path is an object in every configured use. -/
def extract_fingerprints (file_data : Json) (data_key : Option String) : List Json :=
  let target : Json :=
    match data_key with
    | none => file_data
    | some k =>
        if k == "apps" then
          let a := dictGet (dictOfJson file_data) "apps"
          let t := dictGet (dictOfJson file_data) "technologies"
          if optTruthy a then a.getD (Json.obj [])
          else if optTruthy t then t.getD (Json.obj [])
          else Json.obj []
        else pyGet (dictOfJson file_data) k (Json.arr [])
  match target with
  | .arr xs => xs
  | .obj kvs =>
      kvs.map fun p =>
        match p.2 with
        | .obj attrs => Json.obj (dictLit [("name", Json.str p.1)] attrs)
        | _ => Json.obj [("name", Json.str p.1)]
  | _ => []

end InitFingerprintsCommand

/-- Sign-interleaving code of an integer, used by the content token. -/
def intCode (n : Int) : Nat :=
  if 0 ≤ n then 2 * n.toNat else 2 * (-n).toNat - 1

/-- Inverse of intCode. -/
def intDecode (m : Nat) : Int :=
  if m % 2 == 0 then Int.ofNat (m / 2) else -(Int.ofNat ((m + 1) / 2))

mutual

/-- Prefix-free content encoding of a JSON value into a stream of naturals:
each constructor is tagged and length-prefixed, so the stream determines
the value. -/
def encodeJ : Json → List Nat
  | .null => [0]
  | .bool b => [1, if b then 1 else 0]
  | .num n => [2, intCode n]
  | .str s => 3 :: s.length :: s.data.map Char.toNat
  | .arr xs => 4 :: xs.length :: encodeL xs
  | .obj kvs => 5 :: kvs.length :: encodeE kvs
termination_by structural j => j

/-- Concatenated encoding of the elements of a list. -/
def encodeL : List Json → List Nat
  | [] => []
  | x :: xs => encodeJ x ++ encodeL xs
termination_by structural l => l

/-- Concatenated encoding of the entries of an object. -/
def encodeE : List (String × Json) → List Nat
  | [] => []
  | (k, v) :: rest => k.length :: (k.data.map Char.toNat ++ (encodeJ v ++ encodeE rest))
termination_by structural l => l

end

/-- Read back a length-prefixed string from a stream of character codes. -/
def decodeStr (len : Nat) (l : List Nat) : String × List Nat :=
  (String.mk ((l.take len).map Char.ofNat), l.drop len)

mutual

/-- Fuelled decoder for encodeJ; the fuel bounds the container-nesting depth. -/
def decodeJ : Nat → List Nat → Option (Json × List Nat)
  | 0, _ => none
  | _ + 1, 0 :: r => some (.null, r)
  | _ + 1, 1 :: b :: r => some (.bool (b == 1), r)
  | _ + 1, 2 :: m :: r => some (.num (intDecode m), r)
  | _ + 1, 3 :: len :: r => some (.str (decodeStr len r).1, (decodeStr len r).2)
  | fuel + 1, 4 :: len :: r =>
      match decodeL fuel len r with
      | some (xs, rest) => some (.arr xs, rest)
      | none => none
  | fuel + 1, 5 :: len :: r =>
      match decodeE fuel len r with
      | some (kvs, rest) => some (.obj kvs, rest)
      | none => none
  | _ + 1, _ => none
termination_by fuel l => (fuel, 1, 0)

/-- Fuelled decoder for encodeL reading a known number of elements. -/
def decodeL : Nat → Nat → List Nat → Option (List Json × List Nat)
  | _, 0, r => some ([], r)
  | fuel, n + 1, r =>
      match decodeJ fuel r with
      | some (j, r') =>
          match decodeL fuel n r' with
          | some (xs, rest) => some (j :: xs, rest)
          | none => none
      | none => none
termination_by fuel n r => (fuel, 2, n)

/-- Fuelled decoder for encodeE reading a known number of entries. -/
def decodeE : Nat → Nat → List Nat → Option (List (String × Json) × List Nat)
  | _, 0, r => some ([], r)
  | fuel, n + 1, klen :: r =>
      match decodeJ fuel ((decodeStr klen r).2) with
      | some (v, r2) =>
          match decodeE fuel n r2 with
          | some (kvs, rest) => some (((decodeStr klen r).1, v) :: kvs, rest)
          | none => none
      | none => none
  | _, _ + 1, [] => none
termination_by fuel n r => (fuel, 2, n)

end

mutual

/-- Container-nesting depth of a JSON value, used as decoder fuel. -/
def weightJ : Json → Nat
  | .null => 1
  | .bool _ => 1
  | .num _ => 1
  | .str _ => 1
  | .arr xs => 1 + weightL xs
  | .obj kvs => 1 + weightE kvs
termination_by structural j => j

/-- Maximum depth over a list of values. -/
def weightL : List Json → Nat
  | [] => 0
  | x :: xs => max (weightJ x) (weightL xs)
termination_by structural l => l

/-- Maximum depth over the values of an object. -/
def weightE : List (String × Json) → Nat
  | [] => 0
  | (_, v) :: rest => max (weightJ v) (weightE rest)
termination_by structural l => l

end

namespace BaseFingerprintService

/-- Modelled from the spec: BaseFingerprintService.get_fingerprint_version
(services/fingerprints/base.py) is not under src/. Spec section 4.5 asks for
an opaque, comparable, content-derived token over the variant's full record
set whose value changes exactly when the content changes; we realise it as
the injective content encoding of the record set (an idealised content
digest). -/
def get_fingerprint_version (records : List Json) : List Nat :=
  encodeJ (Json.arr records)

/-- Modelled from the spec: BaseFingerprintService.batch_create_fingerprints
(services/fingerprints/base.py) is not under src/. Spec section 4.2: each
record is validated (a failure increments failed and processing continues),
the valid records are normalized and staged, and one bulk write puts the
staged records into the store; created counts the staged rows. -/
def batch_create_fingerprints {M : Type} (validate : Dict → Bool) (toModel : Dict → M)
    (store : List M) (items : List Json) : List M × Nat × Nat :=
  let staged := (items.filter fun it => validate (dictOfJson it)).map fun it => toModel (dictOfJson it)
  (store ++ staged, staged.length, items.length - staged.length)

end BaseFingerprintService

namespace BaseFingerprintViewSet

/-- Modelled from the spec: BaseFingerprintViewSet.import_file
(views/fingerprints/base.py) is not under src/. Spec sections 4.2, 6 and 7
(container-shape failures abort with an error and nothing is written),
mirrored on the ARL override that is in src/: the parsed document goes
through the variant's parse_import_data hook, an empty record list raises a
ValidationError before any store interaction, and otherwise the records go
to batch_create_fingerprints. The returned store is unchanged on the error
path. -/
def import_file {M : Type} (parse : Json → List Json) (validate : Dict → Bool)
    (toModel : Dict → M) (store : List M) (doc : Json) :
    List M × Except String (Nat × Nat) :=
  let fingerprints := parse doc
  if fingerprints.isEmpty then
    (store, .error "文件中没有有效的指纹数据")
  else
    let r := BaseFingerprintService.batch_create_fingerprints validate toModel store fingerprints
    (r.1, .ok r.2)

end BaseFingerprintViewSet

namespace FingersFingerprintViewSet

/-- Translation of FingersFingerprintViewSet.parse_import_data: a list is
passed through, any other document becomes the empty list. -/
def parse_import_data (doc : Json) : List Json :=
  match doc with
  | .arr xs => xs
  | _ => []

/-- The Fingers file-import path: the spec-modelled base import_file
instantiated with the Fingers hooks from src/. -/
def import_file (store : List FingersFingerprintService.Model) (doc : Json) :
    List FingersFingerprintService.Model × Except String (Nat × Nat) :=
  BaseFingerprintViewSet.import_file parse_import_data
    FingersFingerprintService.validate_fingerprint
    FingersFingerprintService.to_model_data store doc

end FingersFingerprintViewSet

namespace FingerPrintHubFingerprintViewSet

/-- Translation of FingerPrintHubFingerprintViewSet.parse_import_data: a
list is passed through, any other document becomes the empty list. -/
def parse_import_data (doc : Json) : List Json :=
  match doc with
  | .arr xs => xs
  | _ => []

/-- The FingerPrintHub file-import path: the spec-modelled base import_file
instantiated with the FingerPrintHub hooks from src/. -/
def import_file (store : List FingerPrintHubFingerprintService.Model) (doc : Json) :
    List FingerPrintHubFingerprintService.Model × Except String (Nat × Nat) :=
  BaseFingerprintViewSet.import_file parse_import_data
    FingerPrintHubFingerprintService.validate_fingerprint
    FingerPrintHubFingerprintService.to_model_data store doc

end FingerPrintHubFingerprintViewSet

namespace GobyFingerprintViewSet

/-- Modelled from the spec: GobyFingerprintViewSet (views/fingerprints/
goby.py) is not under src/. Spec section 4.1: array-only variants expose
the identity flatten, exactly as the Fingers and FingerPrintHub overrides
in src/ do. -/
def parse_import_data (doc : Json) : List Json :=
  match doc with
  | .arr xs => xs
  | _ => []

/-- The Goby file-import path via the spec-modelled base import_file. -/
def import_file (store : List GobyFingerprintService.Model) (doc : Json) :
    List GobyFingerprintService.Model × Except String (Nat × Nat) :=
  BaseFingerprintViewSet.import_file parse_import_data
    GobyFingerprintService.validate_fingerprint
    GobyFingerprintService.to_model_data store doc

end GobyFingerprintViewSet

namespace EholeFingerprintViewSet

/-- Modelled from the spec: EholeFingerprintViewSet (views/fingerprints/
ehole.py) is not under src/. Array-only variant, identity flatten. -/
def parse_import_data (doc : Json) : List Json :=
  match doc with
  | .arr xs => xs
  | _ => []

/-- The EHole file-import path via the spec-modelled base import_file. -/
def import_file (store : List EholeFingerprintService.Model) (doc : Json) :
    List EholeFingerprintService.Model × Except String (Nat × Nat) :=
  BaseFingerprintViewSet.import_file parse_import_data
    EholeFingerprintService.validate_fingerprint
    EholeFingerprintService.to_model_data store doc

end EholeFingerprintViewSet

namespace WappalyzerFingerprintViewSet

/-- Modelled from the spec: WappalyzerFingerprintViewSet
(views/fingerprints/wappalyzer.py) is not under src/. Spec section 4.1:
the keyed-object container is flattened by raw_container_to_list, with the
apps and technologies top-level aliases; realised by the apps branch of
Command._extract_fingerprints, which is in src/. -/
def parse_import_data (doc : Json) : List Json :=
  InitFingerprintsCommand.extract_fingerprints doc (some "apps")

/-- The Wappalyzer file-import path via the spec-modelled base import_file. -/
def import_file (store : List WappalyzerFingerprintService.Model) (doc : Json) :
    List WappalyzerFingerprintService.Model × Except String (Nat × Nat) :=
  BaseFingerprintViewSet.import_file parse_import_data
    WappalyzerFingerprintService.validate_fingerprint
    WappalyzerFingerprintService.to_model_data store doc

end WappalyzerFingerprintViewSet

namespace ARLFingerprintViewSet

/-- Translation of ARLFingerprintViewSet.import_file (views/fingerprints/
arl.py) on an already decoded document: a non-list document raises a
ValidationError about the required array shape, an empty list raises a
no-valid-data ValidationError, and otherwise the records go to
batch_create_fingerprints. The returned store is unchanged on every error
path. -/
def import_file (store : List ARLFingerprintService.Model) (doc : Json) :
    List ARLFingerprintService.Model × Except String (Nat × Nat) :=
  match doc with
  | .arr fingerprints =>
      if fingerprints.isEmpty then
        (store, .error "文件中没有有效的指纹数据")
      else
        let r := BaseFingerprintService.batch_create_fingerprints
          ARLFingerprintService.validate_fingerprint
          ARLFingerprintService.to_model_data store fingerprints
        (r.1, .ok r.2)
  | _ => (store, .error "文件内容必须是数组格式")

end ARLFingerprintViewSet

mutual

/-- Serialization in the style of json.dump with ensure_ascii=False and
default separators, as used when the cache helpers write the data file
(string escaping is not modelled; the scenarios use escape-free strings). -/
def jsonDump : Json → String
  | .null => "null"
  | .bool b => if b then "true" else "false"
  | .num n => toString n
  | .str s => "\"" ++ s ++ "\""
  | .arr xs => "[" ++ String.intercalate ", " (jsonDumpList xs) ++ "]"
  | .obj kvs => "\x7b" ++ String.intercalate ", " (jsonDumpEntries kvs) ++ "\x7d"
termination_by structural j => j

/-- Serialized elements of an array. -/
def jsonDumpList : List Json → List String
  | [] => []
  | x :: xs => jsonDump x :: jsonDumpList xs
termination_by structural l => l

/-- Serialized entries of an object. -/
def jsonDumpEntries : List (String × Json) → List String
  | [] => []
  | (k, v) :: rest => ("\"" ++ k ++ "\": " ++ jsonDump v) :: jsonDumpEntries rest
termination_by structural l => l

end

namespace FingerprintHelpers

/-- Worker-side cache state for one variant: the contents of the version
marker file (modelled as the token it stores, absent on first run) and of
the data file. -/
structure CacheFS where
  versionFile : Option (List Nat)
  dataFile : Option String
deriving DecidableEq

/-- Result of one ensure call: the file state afterwards, the returned
path, and whether the export/write branch ran. -/
structure EnsureResult where
  fs : CacheFS
  path : String
  didExport : Bool
deriving DecidableEq

/-- Translation of the shared shape of the six ensure_*_fingerprint_local
functions in apps/scan/utils/fingerprint_helpers.py, parameterized by the
store type, the cache path, the service's version token and the bytes the
export writes: read the marker, compare with the current token, return the
cached path when they match and the data file exists, otherwise export the
data file and rewrite the marker. -/
def ensure_fingerprint_local {S : Type} (path : String) (version : S → List Nat)
    (exportBytes : S → String) (store : S) (fs : CacheFS) : EnsureResult :=
  let current := version store
  if fs.versionFile == some current && fs.dataFile.isSome then
    { fs := fs, path := path, didExport := false }
  else
    { fs := { versionFile := some current, dataFile := some (exportBytes store) }
      path := path
      didExport := true }

/-- The export bytes the Goby helper writes (json.dump of get_export_data). -/
def gobyExportBytes (store : List GobyFingerprintService.Model) : String :=
  jsonDump (Json.arr ((GobyFingerprintService.get_export_data store).map Json.obj))

/-- Translation of ensure_goby_fingerprint_local (cache file goby.json). -/
def ensure_goby_fingerprint_local (store : List GobyFingerprintService.Model)
    (fs : CacheFS) : EnsureResult :=
  ensure_fingerprint_local "goby.json"
    (fun st => BaseFingerprintService.get_fingerprint_version
      ((GobyFingerprintService.get_export_data st).map Json.obj))
    gobyExportBytes store fs

/-- Fault-injection switches for the three file operations an ensure call
performs: reading the marker, exporting/writing the data file, and
writing the marker. -/
structure IOFaults where
  readMarkerFails : Bool
  writeDataFails : Bool
  writeMarkerFails : Bool
deriving DecidableEq

/-- The ensure_*_fingerprint_local shape with the source's error handling
made explicit: an OSError while reading the marker is caught and treated
as an absent marker; an error while exporting or writing the data file is
not guarded and propagates to the caller; an OSError while writing the
marker is caught and the call still returns the path. -/
def ensure_fingerprint_local_io {S : Type} (path : String) (version : S → List Nat)
    (exportBytes : S → String) (faults : IOFaults) (store : S) (fs : CacheFS) :
    Except String (CacheFS × String) :=
  let current := version store
  let cached : Option (List Nat) :=
    if faults.readMarkerFails then none else fs.versionFile
  if cached == some current && fs.dataFile.isSome then
    .ok (fs, path)
  else if faults.writeDataFails then
    .error "OSError"
  else
    .ok ({ versionFile := if faults.writeMarkerFails then fs.versionFile else some current
           dataFile := some (exportBytes store) }, path)

/-- One step of file-system activity during a cache refresh. -/
inductive FileOp where
  | openTrunc (path : String)
  | writeChunk (path : String) (chunk : String)
  | rename (src : String) (tgt : String)

/-- Whether a step is a rename onto the given path. -/
def isRenameOnto (p : String) : FileOp → Bool
  | .rename _ tgt => tgt == p
  | _ => false

/-- Effect of one file operation on the file system (path to content). -/
def applyOp (fs : String → Option String) : FileOp → String → Option String
  | .openTrunc p, q => if q == p then some "" else fs q
  | .writeChunk p c, q => if q == p then some (((fs p).getD "") ++ c) else fs q
  | .rename src tgt, q =>
      if q == tgt then fs src else if q == src then none else fs q

/-- The successive contents of one path while a list of file operations
runs, starting state included. -/
def contentTrace (fs0 : String → Option String) (ops : List FileOp) (p : String) :
    List (Option String) :=
  (ops.scanl applyOp fs0).map fun f => f p

/-- The file operations the Goby refresh path performs on the data file
(fingerprint_helpers.py lines 122-125): open the cache file for truncating
write, then stream the serialized export into it. No temporary file and no
rename appear in the source. -/
def gobyRefreshOps (store : List GobyFingerprintService.Model) : List FileOp :=
  [FileOp.openTrunc "goby.json", FileOp.writeChunk "goby.json" (gobyExportBytes store)]

/-- Translation of FINGERPRINT_LIB_MAP (lib name to ensure function name). -/
def FINGERPRINT_LIB_MAP : List (String × String) :=
  [("ehole", "ensure_ehole_fingerprint_local"),
   ("goby", "ensure_goby_fingerprint_local"),
   ("wappalyzer", "ensure_wappalyzer_fingerprint_local"),
   ("fingers", "ensure_fingers_fingerprint_local"),
   ("fingerprinthub", "ensure_fingerprinthub_fingerprint_local"),
   ("arl", "ensure_arl_fingerprint_local")]

/-- First-match lookup in a string-valued association list. -/
def strGet (d : List (String × String)) (k : String) : Option String :=
  match d with
  | [] => none
  | (k', v) :: rest => if k' == k then some v else strGet rest k

/-- Python dict assignment for a string-valued dict. -/
def strSet (d : List (String × String)) (k : String) (v : String) :
    List (String × String) :=
  match d with
  | [] => [(k, v)]
  | (k', v') :: rest => if k' == k then (k', v) :: rest else (k', v') :: strSet rest k v

/-- Loop body of get_fingerprint_paths with an explicit paths accumulator:
a lib name missing from FINGERPRINT_LIB_MAP is skipped, a run whose ensure
call raises is skipped (the exception is caught and logged), and a
successful run stores the returned path. All six mapped ensure functions
are defined in the module, so the globals lookup branch never skips. -/
def get_fingerprint_paths_go (ensureRun : String → Except String String)
    (paths : List (String × String)) : List String → List (String × String)
  | [] => paths
  | lib :: rest =>
      if (FINGERPRINT_LIB_MAP.find? fun p => p.1 == lib).isSome then
        match ensureRun lib with
        | .ok p => get_fingerprint_paths_go ensureRun (strSet paths lib p) rest
        | .error _ => get_fingerprint_paths_go ensureRun paths rest
      else get_fingerprint_paths_go ensureRun paths rest

/-- Translation of get_fingerprint_paths, parameterized by what each
library's ensure function does (returns a path or raises). -/
def get_fingerprint_paths (ensureRun : String → Except String String)
    (lib_names : List String) : List (String × String) :=
  get_fingerprint_paths_go ensureRun [] lib_names

end FingerprintHelpers
theorem intDecode_intCode (n : Int) : intDecode (intCode n) = n := by
  unfold intCode intDecode
  rcases le_or_lt 0 n with h | h
  · rw [if_pos h]
    have h2 : (2 * n.toNat % 2 == 0) = true := by
      simp only [beq_iff_eq]
      omega
    rw [if_pos h2]
    simp only [Int.ofNat_eq_coe]
    omega
  · rw [if_neg (not_le.mpr h)]
    have h1 : 1 ≤ (-n).toNat := by omega
    have h2 : ¬((2 * (-n).toNat - 1) % 2 == 0) = true := by
      simp only [beq_iff_eq]
      omega
    rw [if_neg h2]
    simp only [Int.ofNat_eq_coe]
    omega

theorem weightJ_pos (j : Json) : 1 ≤ weightJ j := by
  cases j <;> simp [weightJ]

theorem decodeStr_encoded (s : String) (r : List Nat) :
    decodeStr s.length (s.data.map Char.toNat ++ r) = (s, r) := by
  unfold decodeStr
  have hl : s.length = (s.data.map Char.toNat).length := by
    rw [List.length_map]
    rfl
  rw [hl, List.take_left, List.drop_left, List.map_map]
  have hmap : s.data.map (Char.ofNat ∘ Char.toNat) = s.data := by
    simp [Function.comp_def, Char.ofNat_toNat]
  rw [hmap]

theorem decodeJ_encodeJ :
    ∀ fuel, ∀ j r, weightJ j ≤ fuel → decodeJ fuel (encodeJ j ++ r) = some (j, r) := by
  intro fuel
  induction fuel with
  | zero =>
      intro j r h
      exact absurd (le_trans (weightJ_pos j) h) (by omega)
  | succ fuel ih =>
      have hL : ∀ ys r', weightL ys ≤ fuel →
          decodeL fuel ys.length (encodeL ys ++ r') = some (ys, r') := by
        intro ys
        induction ys with
        | nil => intro r' _; simp [encodeL, decodeL]
        | cons y ys ihy =>
            intro r' hw
            have hy : weightJ y ≤ fuel := le_trans (le_max_left _ _) hw
            have hys : weightL ys ≤ fuel := le_trans (le_max_right _ _) hw
            have h1 : encodeL (y :: ys) ++ r' = encodeJ y ++ (encodeL ys ++ r') := by
              simp [encodeL, List.append_assoc]
            rw [h1]
            simp [decodeL, ih y _ hy, ihy r' hys]
      have hE : ∀ es r', weightE es ≤ fuel →
          decodeE fuel es.length (encodeE es ++ r') = some (es, r') := by
        intro es
        induction es with
        | nil => intro r' _; simp [encodeE, decodeE]
        | cons kv es ihe =>
            intro r' hw
            obtain ⟨k, v⟩ := kv
            have hv : weightJ v ≤ fuel := le_trans (le_max_left _ _) hw
            have hes : weightE es ≤ fuel := le_trans (le_max_right _ _) hw
            have h1 : encodeE ((k, v) :: es) ++ r' =
                k.length :: (k.data.map Char.toNat ++ (encodeJ v ++ (encodeE es ++ r'))) := by
              simp [encodeE, List.append_assoc]
            rw [h1]
            simp [decodeE, decodeStr_encoded k (encodeJ v ++ (encodeE es ++ r')),
              ih v _ hv, ihe r' hes]
      intro j r h
      cases j with
      | null => simp [encodeJ, decodeJ]
      | bool b => cases b <;> simp [encodeJ, decodeJ]
      | num n => simp [encodeJ, decodeJ, intDecode_intCode]
      | str s =>
          have h1 : encodeJ (Json.str s) ++ r =
              3 :: s.length :: (s.data.map Char.toNat ++ r) := by
            simp [encodeJ]
          rw [h1]
          simp [decodeJ, decodeStr_encoded s r]
      | arr xs =>
          have hw : weightL xs ≤ fuel := by
            have := h; simp [weightJ] at this; omega
          have h1 : encodeJ (Json.arr xs) ++ r = 4 :: xs.length :: (encodeL xs ++ r) := by
            simp [encodeJ]
          rw [h1]
          simp [decodeJ, hL xs r hw]
      | obj kvs =>
          have hw : weightE kvs ≤ fuel := by
            have := h; simp [weightJ] at this; omega
          have h1 : encodeJ (Json.obj kvs) ++ r = 5 :: kvs.length :: (encodeE kvs ++ r) := by
            simp [encodeJ]
          rw [h1]
          simp [decodeJ, hE kvs r hw]

theorem encodeJ_injective : Function.Injective encodeJ := by
  intro a b h
  have ha : decodeJ (max (weightJ a) (weightJ b)) (encodeJ a ++ []) = some (a, []) :=
    decodeJ_encodeJ _ a [] (le_max_left _ _)
  have hb : decodeJ (max (weightJ a) (weightJ b)) (encodeJ b ++ []) = some (b, []) :=
    decodeJ_encodeJ _ b [] (le_max_right _ _)
  rw [h] at ha
  have h2 : (a, ([] : List Nat)) = (b, []) := Option.some.inj (ha.symm.trans hb)
  exact (Prod.ext_iff.mp h2).1

/-- C2: the version token is stable and content-sensitive: it is a pure
function of the variant's record set (so two observations with no
intervening mutation are equal), and two tokens are equal exactly when the
record sets are equal, so any content change, including a same-count edit
of one record, changes the token. -/
theorem version_token_content_identity (rs rs' : List Json) :
    BaseFingerprintService.get_fingerprint_version rs =
      BaseFingerprintService.get_fingerprint_version rs' ↔ rs = rs' := by
  constructor
  · intro h
    have h2 : Json.arr rs = Json.arr rs' :=
      encodeJ_injective h
    exact (Json.arr.injEq _ _).mp h2
  · intro h
    rw [h]

/-- C6: with no store mutation between two ensure calls, the first call
establishes a marker equal to the current version token and a present data
file, and the second call is a pure cache hit: it performs no export/write
work, returns the same path, and leaves the file state unchanged. -/
theorem cache_ensure_idempotent {S : Type} (path : String) (version : S → List Nat)
    (exportBytes : S → String) (store : S) (fs : FingerprintHelpers.CacheFS) :
    (FingerprintHelpers.ensure_fingerprint_local path version exportBytes store
        (FingerprintHelpers.ensure_fingerprint_local path version exportBytes store fs).fs) =
      { fs := (FingerprintHelpers.ensure_fingerprint_local path version exportBytes store fs).fs
        path := path
        didExport := false } ∧
    (FingerprintHelpers.ensure_fingerprint_local path version exportBytes store fs).path
      = path ∧
    (FingerprintHelpers.ensure_fingerprint_local path version exportBytes store fs).fs.versionFile
      = some (version store) ∧
    (FingerprintHelpers.ensure_fingerprint_local path version exportBytes store fs).fs.dataFile.isSome
      = true := by
  unfold FingerprintHelpers.ensure_fingerprint_local
  by_cases h : (fs.versionFile == some (version store) && fs.dataFile.isSome) = true
  · have hv : fs.versionFile = some (version store) :=
      eq_of_beq (Bool.and_elim_left h)
    have hd : fs.dataFile.isSome = true := Bool.and_elim_right h
    simp [h, hv, hd]
  · simp [h]

/-- Lookup after a Python-style dict assignment. -/
theorem strGet_strSet (d : List (String × String)) (k v q : String) :
    FingerprintHelpers.strGet (FingerprintHelpers.strSet d k v) q =
      if q = k then some v else FingerprintHelpers.strGet d q := by
  induction d with
  | nil =>
      simp only [FingerprintHelpers.strSet, FingerprintHelpers.strGet, beq_iff_eq]
      rcases eq_or_ne q k with h | h
      · subst h; simp
      · simp [h, Ne.symm h]
  | cons p rest ih =>
      obtain ⟨k', v'⟩ := p
      simp only [FingerprintHelpers.strSet, beq_iff_eq]
      rcases eq_or_ne k' k with h1 | h1
      · subst h1
        simp only [if_pos rfl, FingerprintHelpers.strGet, beq_iff_eq]
        rcases eq_or_ne k' q with h2 | h2
        · subst h2; simp
        · simp [h2, Ne.symm h2]
      · simp only [if_neg h1, FingerprintHelpers.strGet, beq_iff_eq, ih]
        rcases eq_or_ne k' q with h2 | h2
        · have hqk : q ≠ k := h2 ▸ h1
          simp [h2, hqk]
        · simp [h2]

/-- Soundness of the get_fingerprint_paths loop relative to its accumulator:
every binding of the result was already in the accumulator or comes from a
processed lib name that is in the library map and whose ensure call
succeeded with exactly that path. -/
theorem get_fingerprint_paths_go_sound (ensureRun : String → Except String String) :
    ∀ (names : List String) (paths : List (String × String)) (k v : String),
      FingerprintHelpers.strGet
          (FingerprintHelpers.get_fingerprint_paths_go ensureRun paths names) k = some v →
      FingerprintHelpers.strGet paths k = some v ∨
        (k ∈ names ∧
          (FingerprintHelpers.FINGERPRINT_LIB_MAP.find? fun p => p.1 == k).isSome = true ∧
          ensureRun k = .ok v) := by
  intro names
  induction names with
  | nil => intro paths k v h; exact Or.inl h
  | cons lib rest ih =>
      intro paths k v h
      simp only [FingerprintHelpers.get_fingerprint_paths_go] at h
      by_cases hm : (FingerprintHelpers.FINGERPRINT_LIB_MAP.find? fun p => p.1 == lib).isSome = true
      · rw [if_pos hm] at h
        rcases he : ensureRun lib with e | p
        · rw [he] at h
          rcases ih _ k v h with h1 | h1
          · exact Or.inl h1
          · exact Or.inr ⟨List.mem_cons_of_mem _ h1.1, h1.2⟩
        · rw [he] at h
          rcases ih _ k v h with h1 | h1
          · rw [strGet_strSet] at h1
            by_cases hk : k = lib
            · subst hk
              rw [if_pos rfl] at h1
              exact Or.inr ⟨List.mem_cons_self _ _, hm, by rw [he, Option.some.inj h1]⟩
            · rw [if_neg hk] at h1
              exact Or.inl h1
          · exact Or.inr ⟨List.mem_cons_of_mem _ h1.1, h1.2⟩
      · rw [if_neg hm] at h
        rcases ih _ k v h with h1 | h1
        · exact Or.inl h1
        · exact Or.inr ⟨List.mem_cons_of_mem _ h1.1, h1.2⟩

/-- C10: get_fingerprint_paths is total (it returns a mapping instead of
raising) and every binding it returns belongs to a requested lib name that
is in FINGERPRINT_LIB_MAP and whose ensure function returned exactly that
path; lib names outside the map and lib names whose ensure call raised are
skipped and produce no binding. -/
theorem get_fingerprint_paths_sound (ensureRun : String → Except String String)
    (lib_names : List String) (k v : String)
    (h : FingerprintHelpers.strGet
        (FingerprintHelpers.get_fingerprint_paths ensureRun lib_names) k = some v) :
    k ∈ lib_names ∧
      (FingerprintHelpers.FINGERPRINT_LIB_MAP.find? fun p => p.1 == k).isSome = true ∧
      ensureRun k = .ok v := by
  rcases get_fingerprint_paths_go_sound ensureRun lib_names [] k v h with h1 | h1
  · exact absurd h1 (by simp [FingerprintHelpers.strGet])
  · exact h1

/-- Witness for C10 at a concrete run: requesting the goby library with an
ensure function that returns /opt/xingrin/fingerprints/goby.json yields
exactly that binding, and the theorem's conclusions hold there. -/
theorem get_fingerprint_paths_sound_witness :
    FingerprintHelpers.strGet
        (FingerprintHelpers.get_fingerprint_paths
          (fun lib => .ok ("/opt/xingrin/fingerprints/" ++ lib ++ ".json"))
          ["goby", "nonexistent"]) "goby"
      = some "/opt/xingrin/fingerprints/goby.json" ∧
    ("goby" ∈ ["goby", "nonexistent"] ∧
      (FingerprintHelpers.FINGERPRINT_LIB_MAP.find? fun p => p.1 == "goby").isSome = true ∧
      (fun lib => (.ok ("/opt/xingrin/fingerprints/" ++ lib ++ ".json") :
          Except String String)) "goby" = .ok "/opt/xingrin/fingerprints/goby.json") :=
  ⟨by decide,
    get_fingerprint_paths_sound
      (fun lib => .ok ("/opt/xingrin/fingerprints/" ++ lib ++ ".json"))
      ["goby", "nonexistent"] "goby" "/opt/xingrin/fingerprints/goby.json" (by decide)⟩

/-- C4: the Wappalyzer flatten scenario: the container with one WordPress
app carrying cats=[1] and html=[wp-content] flattens to exactly one raw
record named WordPress, that record validates, normalizes to a model whose
other optional fields are all at their defaults, and exporting that
one-record store reproduces the original container verbatim with no empty
optional keys. -/
theorem wappalyzer_flatten_scenario :
    InitFingerprintsCommand.extract_fingerprints
        (Json.obj [("apps", Json.obj [("WordPress", Json.obj
          [("cats", Json.arr [Json.num 1]),
           ("html", Json.arr [Json.str "wp-content"])])])])
        (some "apps")
      = [Json.obj [("name", Json.str "WordPress"),
          ("cats", Json.arr [Json.num 1]),
          ("html", Json.arr [Json.str "wp-content"])]] ∧
    WappalyzerFingerprintService.validate_fingerprint
        [("name", Json.str "WordPress"),
         ("cats", Json.arr [Json.num 1]),
         ("html", Json.arr [Json.str "wp-content"])]
      = true ∧
    WappalyzerFingerprintService.to_model_data
        [("name", Json.str "WordPress"),
         ("cats", Json.arr [Json.num 1]),
         ("html", Json.arr [Json.str "wp-content"])]
      = { name := "WordPress"
          cats := Json.arr [Json.num 1]
          cookies := Json.obj []
          headers := Json.obj []
          script_src := Json.arr []
          js := Json.arr []
          implies := Json.arr []
          meta := Json.obj []
          html := Json.arr [Json.str "wp-content"]
          description := Json.str ""
          website := Json.str ""
          cpe := Json.str "" } ∧
    WappalyzerFingerprintService.get_export_data
        [{ name := "WordPress"
           cats := Json.arr [Json.num 1]
           cookies := Json.obj []
           headers := Json.obj []
           script_src := Json.arr []
           js := Json.arr []
           implies := Json.arr []
           meta := Json.obj []
           html := Json.arr [Json.str "wp-content"]
           description := Json.str ""
           website := Json.str ""
           cpe := Json.str "" }]
      = Json.obj [("apps", Json.obj [("WordPress", Json.obj
          [("cats", Json.arr [Json.num 1]),
           ("html", Json.arr [Json.str "wp-content"])])])] :=
  ⟨rfl, by decide, by rfl, rfl⟩

/-- C7: for a normalized Fingers record with a boolean focus and an array
default_port, the export emits the focus key exactly when focus is true
(and then with value true) and emits the default_port key exactly when the
array is non-empty. -/
theorem fingers_export_default_omission (fp : FingersFingerprintService.Model)
    (b : Bool) (ps : List Json)
    (hf : fp.focus = Json.bool b) (hp : fp.default_port = Json.arr ps) :
    hasKey (FingersFingerprintService.export_record fp) "focus" = b ∧
    hasKey (FingersFingerprintService.export_record fp) "default_port" = !ps.isEmpty ∧
    (b = true →
      dictGet (FingersFingerprintService.export_record fp) "focus" = some (Json.bool true)) := by
  obtain ⟨name, link, rule, tag, focus, dport⟩ := fp
  simp only at hf hp
  subst hf
  subst hp
  refine ⟨?_, ?_, ?_⟩
  · cases b <;> cases ps <;> rfl
  · cases b <;> cases ps <;> rfl
  · intro hb
    subst hb
    cases ps <;> rfl

/-- Witness for C7 at two concrete records: one with focus false and empty
default_port exports neither key; one with focus true exports focus: true. -/
theorem fingers_export_default_omission_witness :
    (hasKey (FingersFingerprintService.export_record
        { name := "X", link := Json.str "", rule := Json.arr [], tag := Json.arr []
          focus := Json.bool false, default_port := Json.arr [] }) "focus" = false ∧
      hasKey (FingersFingerprintService.export_record
        { name := "X", link := Json.str "", rule := Json.arr [], tag := Json.arr []
          focus := Json.bool false, default_port := Json.arr [] }) "default_port"
        = !(List.isEmpty ([] : List Json)) ∧
      (false = true →
        dictGet (FingersFingerprintService.export_record
          { name := "X", link := Json.str "", rule := Json.arr [], tag := Json.arr []
            focus := Json.bool false, default_port := Json.arr [] }) "focus"
          = some (Json.bool true))) ∧
    (true = true →
      dictGet (FingersFingerprintService.export_record
        { name := "Y", link := Json.str "", rule := Json.arr [], tag := Json.arr []
          focus := Json.bool true, default_port := Json.arr [] }) "focus"
        = some (Json.bool true)) :=
  ⟨fingers_export_default_omission _ false [] rfl rfl,
    (fingers_export_default_omission
      { name := "Y", link := Json.str "", rule := Json.arr [], tag := Json.arr []
        focus := Json.bool true, default_port := Json.arr [] } true [] rfl rfl).2.2⟩

/-- Keys that appear in the Fingers raw schema. -/
def fingersKnownKeys : List String := ["name", "link", "rule", "tag", "focus", "default_port"]

/-- Membership of a binding found by dictGet. -/
theorem dictGet_mem (d : Dict) (k : String) (v : Json) (h : dictGet d k = some v) :
    (k, v) ∈ d := by
  induction d with
  | nil => exact absurd h (by simp [dictGet])
  | cons p rest ih =>
      obtain ⟨k', v'⟩ := p
      simp only [dictGet, beq_iff_eq] at h
      by_cases hk : k' = k
      · rw [if_pos hk] at h
        subst hk
        rw [Option.some.injEq] at h
        subst h
        exact List.mem_cons_self _ _
      · rw [if_neg hk] at h
        exact List.mem_cons_of_mem _ (ih h)

/-- Per-key description of the record the Fingers export reconstructs. -/
theorem fingers_export_record_lookup (m : FingersFingerprintService.Model) (q : String) :
    dictGet (FingersFingerprintService.export_record m) q =
      if "name" = q then some (Json.str m.name)
      else if "link" = q then some m.link
      else if "rule" = q then some m.rule
      else if "tag" = q then some m.tag
      else if "focus" = q then (if pyTruthy m.focus then some m.focus else none)
      else if "default_port" = q then
        (if pyTruthy m.default_port then some m.default_port else none)
      else none := by
  by_cases hf : pyTruthy m.focus = true <;> by_cases hp : pyTruthy m.default_port = true <;>
    simp [FingersFingerprintService.export_record, hf, hp, dictGet, beq_iff_eq] <;>
    split_ifs <;> simp_all <;>
    (rename_i hq1 hq2; exact absurd (hq2.trans hq1.symm) (by decide))

/-- C1 (amended): for the Fingers variant, on records accepted by validate
whose keys are among the six known fields and whose name is an already
stripped string, the export-after-normalize round trip never loses a field
holding a truthy (non-default) value, can add only the always-emitted link
and tag fields and only with their default empty values, and emits focus
and default_port exactly when the record's value for them is truthy. -/
theorem fingers_round_trip_amended (item : Dict)
    (hv : FingersFingerprintService.validate_fingerprint item = true)
    (hkeys : ∀ p, p ∈ item → p.1 ∈ fingersKnownKeys)
    (hname : ∃ s, dictGet item "name" = some (Json.str s) ∧ pyStrip s = s) :
    (∀ k v, dictGet item k = some v → pyTruthy v = true →
      dictGet (FingersFingerprintService.export_record
        (FingersFingerprintService.to_model_data item)) k = some v) ∧
    (∀ k, hasKey (FingersFingerprintService.export_record
          (FingersFingerprintService.to_model_data item)) k = true →
      hasKey item k = true ∨
        (k = "link" ∧ dictGet (FingersFingerprintService.export_record
            (FingersFingerprintService.to_model_data item)) k = some (Json.str "")) ∨
        (k = "tag" ∧ dictGet (FingersFingerprintService.export_record
            (FingersFingerprintService.to_model_data item)) k = some (Json.arr []))) ∧
    hasKey (FingersFingerprintService.export_record
        (FingersFingerprintService.to_model_data item)) "focus"
      = optTruthy (dictGet item "focus") ∧
    hasKey (FingersFingerprintService.export_record
        (FingersFingerprintService.to_model_data item)) "default_port"
      = optTruthy (dictGet item "default_port") := by
  obtain ⟨s, hs, hstrip⟩ := hname
  set m := FingersFingerprintService.to_model_data item with hm
  have hout := fingers_export_record_lookup m
  have hOname : dictGet (FingersFingerprintService.export_record m) "name"
      = some (Json.str m.name) := by rw [hout]; simp
  have hOlink : dictGet (FingersFingerprintService.export_record m) "link"
      = some m.link := by rw [hout]; simp
  have hOrule : dictGet (FingersFingerprintService.export_record m) "rule"
      = some m.rule := by rw [hout]; simp
  have hOtag : dictGet (FingersFingerprintService.export_record m) "tag"
      = some m.tag := by rw [hout]; simp
  have hOfocus : dictGet (FingersFingerprintService.export_record m) "focus"
      = (if pyTruthy m.focus then some m.focus else none) := by rw [hout]; simp
  have hOport : dictGet (FingersFingerprintService.export_record m) "default_port"
      = (if pyTruthy m.default_port then some m.default_port else none) := by
    rw [hout]; simp
  have hmname : m.name = s := by
    simp [hm, FingersFingerprintService.to_model_data, pyGet, hs, pyStr, hstrip]
  have hmlink : m.link = pyGet item "link" (Json.str "") := by
    simp [hm, FingersFingerprintService.to_model_data]
  have hmrule : m.rule = pyGet item "rule" (Json.arr []) := by
    simp [hm, FingersFingerprintService.to_model_data]
  have hmtag : m.tag = pyGet item "tag" (Json.arr []) := by
    simp [hm, FingersFingerprintService.to_model_data]
  have hmfocus : m.focus = pyGet item "focus" (Json.bool false) := by
    simp [hm, FingersFingerprintService.to_model_data]
  have hmport : m.default_port = pyGet item "default_port" (Json.arr []) := by
    simp [hm, FingersFingerprintService.to_model_data]
  refine ⟨?_, ?_, ?_, ?_⟩
  · intro k v hkv htv
    have hk6 : k ∈ fingersKnownKeys := hkeys (k, v) (dictGet_mem _ _ _ hkv)
    simp only [fingersKnownKeys, List.mem_cons, List.not_mem_nil, or_false] at hk6
    rcases hk6 with rfl | rfl | rfl | rfl | rfl | rfl
    · rw [hOname, hmname]
      rw [hs] at hkv
      rw [Option.some.injEq] at hkv
      rw [← hkv]
    · rw [hOlink, hmlink]
      simp [pyGet, hkv]
    · rw [hOrule, hmrule]
      simp [pyGet, hkv]
    · rw [hOtag, hmtag]
      simp [pyGet, hkv]
    · rw [hOfocus]
      have : m.focus = v := by rw [hmfocus]; simp [pyGet, hkv]
      rw [this, if_pos htv]
    · rw [hOport]
      have : m.default_port = v := by rw [hmport]; simp [pyGet, hkv]
      rw [this, if_pos htv]
  · intro k hk
    simp only [hasKey] at hk
    rw [hout] at hk
    split_ifs at hk with h1 h2 h3 h4 h5 h6 h7 h8
    · subst h1
      exact Or.inl (by simp [hasKey, hs])
    · subst h2
      by_cases hil : hasKey item "link" = true
      · exact Or.inl hil
      · refine Or.inr (Or.inl ⟨rfl, ?_⟩)
        have hnone : dictGet item "link" = none := by
          simpa [hasKey, Option.not_isSome_iff_eq_none] using hil
        rw [hOlink, hmlink]
        simp [pyGet, hnone]
    · subst h3
      refine Or.inl ?_
      rcases hdr : dictGet item "rule" with _ | r
      · exfalso
        rw [FingersFingerprintService.validate_fingerprint, hdr] at hv
        simp at hv
      · simp [hasKey, hdr]
    · subst h4
      by_cases hit : hasKey item "tag" = true
      · exact Or.inl hit
      · refine Or.inr (Or.inr ⟨rfl, ?_⟩)
        have hnone : dictGet item "tag" = none := by
          simpa [hasKey, Option.not_isSome_iff_eq_none] using hit
        rw [hOtag, hmtag]
        simp [pyGet, hnone]
    · subst h5
      refine Or.inl ?_
      rcases hdf : dictGet item "focus" with _ | v
      · exfalso
        have hff : m.focus = Json.bool false := by rw [hmfocus]; simp [pyGet, hdf]
        rw [hff] at h6
        simp [pyTruthy] at h6
      · simp [hasKey, hdf]
    · simp at hk
    · subst h7
      refine Or.inl ?_
      rcases hdp : dictGet item "default_port" with _ | v
      · exfalso
        have hpp : m.default_port = Json.arr [] := by rw [hmport]; simp [pyGet, hdp]
        rw [hpp] at h8
        simp [pyTruthy] at h8
      · simp [hasKey, hdp]
    · simp at hk
    · simp at hk
  · simp only [hasKey]
    rw [hOfocus]
    rcases hdf : dictGet item "focus" with _ | v
    · have : m.focus = Json.bool false := by rw [hmfocus]; simp [pyGet, hdf]
      rw [this]
      simp [pyTruthy, optTruthy]
    · have : m.focus = v := by rw [hmfocus]; simp [pyGet, hdf]
      rw [this]
      simp only [optTruthy]
      cases h : pyTruthy v <;> simp [h]
  · simp only [hasKey]
    rw [hOport]
    rcases hdp : dictGet item "default_port" with _ | v
    · have : m.default_port = Json.arr [] := by rw [hmport]; simp [pyGet, hdp]
      rw [this]
      simp [pyTruthy, optTruthy]
    · have : m.default_port = v := by rw [hmport]; simp [pyGet, hdp]
      rw [this]
      simp only [optTruthy]
      cases h : pyTruthy v <;> simp [h]

/-- C1 (counterexample): the Fingers record with only name and rule is
accepted by validate, yet the export of its normalization contains a link
key the record never had (at its default empty value), so the round trip
is not the record with default-valued optional fields removed. -/
theorem fingers_round_trip_counterexample :
    FingersFingerprintService.validate_fingerprint
        [("name", Json.str "X"), ("rule", Json.arr [])] = true ∧
    dictGet [("name", Json.str "X"), ("rule", Json.arr [])] "link" = none ∧
    dictGet (FingersFingerprintService.export_record
        (FingersFingerprintService.to_model_data
          [("name", Json.str "X"), ("rule", Json.arr [])])) "link"
      = some (Json.str "") ∧
    FingersFingerprintService.export_record
        (FingersFingerprintService.to_model_data
          [("name", Json.str "X"), ("rule", Json.arr [])])
      ≠ [("name", Json.str "X"), ("rule", Json.arr [])] := by
  refine ⟨by decide, rfl, by rfl, ?_⟩
  intro h
  have h2 : (some (Json.str "") : Option Json) = none :=
    congrArg (fun l => dictGet l "link") h
  exact Option.noConfusion h2

/-- Witness for C1 (amended) at a concrete accepted record with truthy
focus: the hypotheses hold and the focus-emission clause follows by the
theorem. -/
theorem fingers_round_trip_amended_witness :
    FingersFingerprintService.validate_fingerprint
        [("name", Json.str "X"), ("rule", Json.arr [Json.str "r"]),
          ("focus", Json.bool true)] = true ∧
    hasKey (FingersFingerprintService.export_record
        (FingersFingerprintService.to_model_data
          [("name", Json.str "X"), ("rule", Json.arr [Json.str "r"]),
            ("focus", Json.bool true)])) "focus"
      = optTruthy (dictGet
          [("name", Json.str "X"), ("rule", Json.arr [Json.str "r"]),
            ("focus", Json.bool true)] "focus") :=
  ⟨by decide,
    (fingers_round_trip_amended
      [("name", Json.str "X"), ("rule", Json.arr [Json.str "r"]),
        ("focus", Json.bool true)]
      (by decide) (by decide) ⟨"X", rfl, rfl⟩).2.2.1⟩

/-- C5: for every variant, validate accepts only records whose unique
identifying key (name; id for FingerPrintHub) is present with a non-blank
stripped rendering; an absent key or a whitespace-only key is rejected;
and to_model_data stores the key stripped (hence non-empty whenever
validate passed). -/
theorem unique_key_validation (item : Dict) :
    ((GobyFingerprintService.validate_fingerprint item = true →
        (GobyFingerprintService.to_model_data item).name
            = pyStrip (pyStr (pyGet item "name" (Json.str ""))) ∧
          (GobyFingerprintService.to_model_data item).name ≠ "") ∧
      (dictGet item "name" = none →
        GobyFingerprintService.validate_fingerprint item = false) ∧
      (∀ s, dictGet item "name" = some (Json.str s) → pyStrip s = "" →
        GobyFingerprintService.validate_fingerprint item = false)) ∧
    ((FingersFingerprintService.validate_fingerprint item = true →
        (FingersFingerprintService.to_model_data item).name
            = pyStrip (pyStr (pyGet item "name" (Json.str ""))) ∧
          (FingersFingerprintService.to_model_data item).name ≠ "") ∧
      (dictGet item "name" = none →
        FingersFingerprintService.validate_fingerprint item = false) ∧
      (∀ s, dictGet item "name" = some (Json.str s) → pyStrip s = "" →
        FingersFingerprintService.validate_fingerprint item = false)) ∧
    ((WappalyzerFingerprintService.validate_fingerprint item = true →
        (WappalyzerFingerprintService.to_model_data item).name
            = pyStrip (pyStr (pyGet item "name" (Json.str ""))) ∧
          (WappalyzerFingerprintService.to_model_data item).name ≠ "") ∧
      (dictGet item "name" = none →
        WappalyzerFingerprintService.validate_fingerprint item = false) ∧
      (∀ s, dictGet item "name" = some (Json.str s) → pyStrip s = "" →
        WappalyzerFingerprintService.validate_fingerprint item = false)) ∧
    ((ARLFingerprintService.validate_fingerprint item = true →
        (ARLFingerprintService.to_model_data item).name
            = pyStrip (pyStr (pyGet item "name" (Json.str ""))) ∧
          (ARLFingerprintService.to_model_data item).name ≠ "") ∧
      (dictGet item "name" = none →
        ARLFingerprintService.validate_fingerprint item = false) ∧
      (∀ s, dictGet item "name" = some (Json.str s) → pyStrip s = "" →
        ARLFingerprintService.validate_fingerprint item = false)) ∧
    ((EholeFingerprintService.validate_fingerprint item = true →
        (EholeFingerprintService.to_model_data item).name
            = pyStrip (pyStr (pyGet item "name" (Json.str ""))) ∧
          (EholeFingerprintService.to_model_data item).name ≠ "") ∧
      (dictGet item "name" = none →
        EholeFingerprintService.validate_fingerprint item = false) ∧
      (∀ s, dictGet item "name" = some (Json.str s) → pyStrip s = "" →
        EholeFingerprintService.validate_fingerprint item = false)) ∧
    ((FingerPrintHubFingerprintService.validate_fingerprint item = true →
        (FingerPrintHubFingerprintService.to_model_data item).fp_id
            = pyStrip (pyStr (pyGet item "id" (Json.str ""))) ∧
          (FingerPrintHubFingerprintService.to_model_data item).fp_id ≠ "") ∧
      (dictGet item "id" = none →
        FingerPrintHubFingerprintService.validate_fingerprint item = false) ∧
      (∀ s, dictGet item "id" = some (Json.str s) → pyStrip s = "" →
        FingerPrintHubFingerprintService.validate_fingerprint item = false)) := by
  refine ⟨⟨?_, ?_, ?_⟩, ⟨?_, ?_, ?_⟩, ⟨?_, ?_, ?_⟩, ⟨?_, ?_, ?_⟩, ⟨?_, ?_, ?_⟩,
    ⟨?_, ?_, ?_⟩⟩
  · intro hv
    refine ⟨rfl, ?_⟩
    intro heq
    have heq' : pyStrip (pyStr (pyGet item "name" (Json.str ""))) = "" := heq
    simp only [GobyFingerprintService.validate_fingerprint, heq'] at hv
    simp at hv
  · intro h
    simp [GobyFingerprintService.validate_fingerprint, pyGet, h, pyTruthy]
  · intro s h hstrip
    simp [GobyFingerprintService.validate_fingerprint, pyGet, h, pyStr, hstrip]
  · intro hv
    refine ⟨rfl, ?_⟩
    intro heq
    have heq' : pyStrip (pyStr (pyGet item "name" (Json.str ""))) = "" := heq
    simp only [FingersFingerprintService.validate_fingerprint, heq'] at hv
    simp at hv
  · intro h
    simp [FingersFingerprintService.validate_fingerprint, pyGet, h, pyTruthy]
  · intro s h hstrip
    simp [FingersFingerprintService.validate_fingerprint, pyGet, h, pyStr, hstrip]
  · intro hv
    refine ⟨rfl, ?_⟩
    intro heq
    have heq' : pyStrip (pyStr (pyGet item "name" (Json.str ""))) = "" := heq
    simp only [WappalyzerFingerprintService.validate_fingerprint, heq'] at hv
    simp at hv
  · intro h
    simp [WappalyzerFingerprintService.validate_fingerprint, pyGet, h, pyTruthy]
  · intro s h hstrip
    simp [WappalyzerFingerprintService.validate_fingerprint, pyGet, h, pyStr, hstrip]
  · intro hv
    refine ⟨rfl, ?_⟩
    intro heq
    have heq' : pyStrip (pyStr (pyGet item "name" (Json.str ""))) = "" := heq
    simp only [ARLFingerprintService.validate_fingerprint, heq'] at hv
    simp at hv
  · intro h
    simp [ARLFingerprintService.validate_fingerprint, pyGet, h, pyTruthy]
  · intro s h hstrip
    simp [ARLFingerprintService.validate_fingerprint, pyGet, h, pyStr, hstrip]
  · intro hv
    refine ⟨rfl, ?_⟩
    intro heq
    have heq' : pyStrip (pyStr (pyGet item "name" (Json.str ""))) = "" := heq
    simp only [EholeFingerprintService.validate_fingerprint, heq'] at hv
    simp at hv
  · intro h
    simp [EholeFingerprintService.validate_fingerprint, pyGet, h, pyTruthy]
  · intro s h hstrip
    simp [EholeFingerprintService.validate_fingerprint, pyGet, h, pyStr, hstrip]
  · intro hv
    refine ⟨rfl, ?_⟩
    intro heq
    have heq' : pyStrip (pyStr (pyGet item "id" (Json.str ""))) = "" := heq
    simp only [FingerPrintHubFingerprintService.validate_fingerprint, heq'] at hv
    simp at hv
  · intro h
    simp [FingerPrintHubFingerprintService.validate_fingerprint, pyGet, h, pyTruthy]
  · intro s h hstrip
    simp [FingerPrintHubFingerprintService.validate_fingerprint, pyGet, h, pyStr, hstrip]

/-- Witness for C5 at a concrete record whose name carries surrounding
whitespace: Goby accepts it and stores the stripped non-empty name. -/
theorem unique_key_validation_witness :
    GobyFingerprintService.validate_fingerprint
        [("name", Json.str " X "), ("logic", Json.str "or"), ("rule", Json.arr [])]
      = true ∧
    ((GobyFingerprintService.to_model_data
        [("name", Json.str " X "), ("logic", Json.str "or"), ("rule", Json.arr [])]).name
      = pyStrip (pyStr (pyGet
          [("name", Json.str " X "), ("logic", Json.str "or"), ("rule", Json.arr [])]
          "name" (Json.str ""))) ∧
      (GobyFingerprintService.to_model_data
        [("name", Json.str " X "), ("logic", Json.str "or"), ("rule", Json.arr [])]).name
        ≠ "") :=
  ⟨by decide,
    (unique_key_validation
      [("name", Json.str " X "), ("logic", Json.str "or"), ("rule", Json.arr [])]).1.1
      (by decide)⟩

/-- C3: importing a payload whose top level (after the variant's flatten
step) is not an array is rejected with an error and zero writes: the ARL
view and the ARL YAML parser reject non-list documents outright; the
array-only variants (Fingers, FingerPrintHub, Goby, EHole) flatten a
non-list document to the empty record list, which the import path rejects
before any store interaction; Wappalyzer's keyed-object flatten can only
fail to produce records by producing none, which is rejected the same way.
In every case the returned store is the unchanged input store. -/
theorem container_rejection (payload : Json)
    (storeA : List ARLFingerprintService.Model)
    (storeF : List FingersFingerprintService.Model)
    (storeH : List FingerPrintHubFingerprintService.Model)
    (storeG : List GobyFingerprintService.Model)
    (storeE : List EholeFingerprintService.Model)
    (storeW : List WappalyzerFingerprintService.Model)
    (h : isArr payload = false) :
    ARLFingerprintViewSet.import_file storeA payload
      = (storeA, .error "文件内容必须是数组格式") ∧
    ARLFingerprintService.parse_yaml_import payload
      = .error "ARL YAML 文件必须是数组格式" ∧
    FingersFingerprintViewSet.import_file storeF payload
      = (storeF, .error "文件中没有有效的指纹数据") ∧
    FingerPrintHubFingerprintViewSet.import_file storeH payload
      = (storeH, .error "文件中没有有效的指纹数据") ∧
    GobyFingerprintViewSet.import_file storeG payload
      = (storeG, .error "文件中没有有效的指纹数据") ∧
    EholeFingerprintViewSet.import_file storeE payload
      = (storeE, .error "文件中没有有效的指纹数据") ∧
    (WappalyzerFingerprintViewSet.parse_import_data payload = [] →
      WappalyzerFingerprintViewSet.import_file storeW payload
        = (storeW, .error "文件中没有有效的指纹数据")) := by
  have hw : ∀ hpw : WappalyzerFingerprintViewSet.parse_import_data payload = [],
      WappalyzerFingerprintViewSet.import_file storeW payload
        = (storeW, .error "文件中没有有效的指纹数据") := by
    intro hpw
    unfold WappalyzerFingerprintViewSet.import_file BaseFingerprintViewSet.import_file
    rw [hpw]
    rfl
  cases payload with
  | arr xs => simp [isArr] at h
  | null => exact ⟨rfl, rfl, rfl, rfl, rfl, rfl, hw⟩
  | bool b => exact ⟨rfl, rfl, rfl, rfl, rfl, rfl, hw⟩
  | num n => exact ⟨rfl, rfl, rfl, rfl, rfl, rfl, hw⟩
  | str s => exact ⟨rfl, rfl, rfl, rfl, rfl, rfl, hw⟩
  | obj kvs => exact ⟨rfl, rfl, rfl, rfl, rfl, rfl, hw⟩

/-- Witness for C3 at a concrete non-array payload (a JSON object) on
empty stores: the ARL view and the Fingers import path both reject it and
return the stores unchanged. -/
theorem container_rejection_witness :
    ARLFingerprintViewSet.import_file [] (Json.obj [("a", Json.null)])
      = ([], .error "文件内容必须是数组格式") ∧
    FingersFingerprintViewSet.import_file [] (Json.obj [("a", Json.null)])
      = ([], .error "文件中没有有效的指纹数据") :=
  ⟨(container_rejection (Json.obj [("a", Json.null)]) [] [] [] [] [] [] rfl).1,
    (container_rejection (Json.obj [("a", Json.null)]) [] [] [] [] [] [] rfl).2.2.1⟩

/-- C8 (amended): the Goby cache refresh writes the data file in place:
its file-operation trace contains no rename onto the data path, and the
data file's content passes through the truncated empty state between the
old content and the completed new content, so a concurrent reader can
observe a file that is neither the old nor the new export. -/
theorem goby_refresh_writes_in_place (store : List GobyFingerprintService.Model)
    (fs0 : String → Option String) :
    ((FingerprintHelpers.gobyRefreshOps store).any
        (FingerprintHelpers.isRenameOnto "goby.json")) = false ∧
    FingerprintHelpers.contentTrace fs0 (FingerprintHelpers.gobyRefreshOps store)
        "goby.json"
      = [fs0 "goby.json", some "",
          some (FingerprintHelpers.gobyExportBytes store)] := by
  refine ⟨rfl, ?_⟩
  unfold FingerprintHelpers.contentTrace FingerprintHelpers.gobyRefreshOps
  simp [List.scanl, FingerprintHelpers.applyOp, String.empty_append]

/-- C8 (counterexample): on a concrete one-record Goby store with a
non-empty previously cached file, the refresh performs no rename and the
intermediate trace state is the empty file, which differs from both the
old and the new content: the write is not atomic via
write-to-temporary-file-then-rename. -/
theorem cache_write_not_atomic_counterexample :
    ((FingerprintHelpers.gobyRefreshOps
        [{ name := "X", logic := Json.str "or", rule := Json.arr [Json.str "r"] }]).any
      (FingerprintHelpers.isRenameOnto "goby.json")) = false ∧
    FingerprintHelpers.contentTrace
        (fun q => if q == "goby.json" then some "[]" else none)
        (FingerprintHelpers.gobyRefreshOps
          [{ name := "X", logic := Json.str "or", rule := Json.arr [Json.str "r"] }])
        "goby.json"
      = [some "[]", some "",
          some (FingerprintHelpers.gobyExportBytes
            [{ name := "X", logic := Json.str "or", rule := Json.arr [Json.str "r"] }])] ∧
    (some "" : Option String) ≠ some "[]" ∧
    (some "" : Option String)
      ≠ some (FingerprintHelpers.gobyExportBytes
          [{ name := "X", logic := Json.str "or", rule := Json.arr [Json.str "r"] }]) := by
  refine ⟨rfl, ?_, by decide, by decide⟩
  simp [FingerprintHelpers.contentTrace, FingerprintHelpers.gobyRefreshOps,
    List.scanl, FingerprintHelpers.applyOp, String.empty_append]

/-- C9 (amended): during an ensure call, a marker-read failure is swallowed
(the call still succeeds by refreshing), and a marker-write failure is
swallowed; but a data-file export/write failure on a cache miss propagates
to the caller as an error even when a previously cached data file exists —
the cached path is not returned as a stale fallback. -/
theorem cache_io_error_behaviour {S : Type} (path : String) (version : S → List Nat)
    (exportBytes : S → String) (faults : FingerprintHelpers.IOFaults)
    (store : S) (fs : FingerprintHelpers.CacheFS) :
    (faults.writeDataFails = false →
      ∃ fs', FingerprintHelpers.ensure_fingerprint_local_io path version exportBytes
        faults store fs = .ok (fs', path)) ∧
    (faults.writeDataFails = true →
      ((if faults.readMarkerFails then none else fs.versionFile)
          == some (version store) && fs.dataFile.isSome) = false →
      FingerprintHelpers.ensure_fingerprint_local_io path version exportBytes
        faults store fs = .error "OSError") := by
  constructor
  · intro hw
    unfold FingerprintHelpers.ensure_fingerprint_local_io
    by_cases hc : ((if faults.readMarkerFails then none else fs.versionFile)
        == some (version store) && fs.dataFile.isSome) = true
    · rw [if_pos hc]
      exact ⟨fs, rfl⟩
    · rw [if_neg hc, hw]
      exact ⟨_, rfl⟩
  · intro hw hc
    unfold FingerprintHelpers.ensure_fingerprint_local_io
    rw [if_neg (by simp [hc]), hw]
    rfl

/-- Witness for C9 (amended) at a concrete fault-free run over an empty
Goby store starting from an empty cache directory. -/
theorem cache_io_error_behaviour_witness :
    ({ readMarkerFails := false, writeDataFails := false, writeMarkerFails := false }
        : FingerprintHelpers.IOFaults).writeDataFails = false ∧
    ∃ fs', FingerprintHelpers.ensure_fingerprint_local_io "goby.json"
        (fun st => BaseFingerprintService.get_fingerprint_version
          ((GobyFingerprintService.get_export_data st).map Json.obj))
        FingerprintHelpers.gobyExportBytes
        { readMarkerFails := false, writeDataFails := false, writeMarkerFails := false }
        ([] : List GobyFingerprintService.Model)
        { versionFile := none, dataFile := none }
      = .ok (fs', "goby.json") :=
  ⟨rfl,
    (cache_io_error_behaviour "goby.json"
      (fun st => BaseFingerprintService.get_fingerprint_version
        ((GobyFingerprintService.get_export_data st).map Json.obj))
      FingerprintHelpers.gobyExportBytes
      { readMarkerFails := false, writeDataFails := false, writeMarkerFails := false }
      ([] : List GobyFingerprintService.Model)
      { versionFile := none, dataFile := none }).1 rfl⟩

/-- C9 (counterexample): with a stale marker, an existing cached data file
and a failing data-file write, ensure propagates the error instead of
returning the existing cached file's path as a stale fallback. -/
theorem cache_stale_fallback_counterexample :
    ({ versionFile := some [99], dataFile := some "[]" }
        : FingerprintHelpers.CacheFS).dataFile.isSome = true ∧
    FingerprintHelpers.ensure_fingerprint_local_io "goby.json"
        (fun st => BaseFingerprintService.get_fingerprint_version
          ((GobyFingerprintService.get_export_data st).map Json.obj))
        FingerprintHelpers.gobyExportBytes
        { readMarkerFails := false, writeDataFails := true, writeMarkerFails := false }
        ([] : List GobyFingerprintService.Model)
        { versionFile := some [99], dataFile := some "[]" }
      = .error "OSError" :=
  ⟨rfl, by rfl⟩
